import Mathlib

/-!
Verification of the light-selection, coordinate-transform and row-construction
core of a Blender dataset-export script (`processing/data_exporter.py`).

The script is embedded shallowly:
* machine floats appearing as scene data (energies, colors, sizes, matrix
  entries) are modelled as rationals (every machine float is a rational);
* derived geometry (normalised direction vectors, which involve square roots)
  lives in `ℝ`;
* the Python dictionary emitted per light slot becomes the `Slot` structure,
  and the CSV cell domain (floats, strings, booleans) becomes `CellVal`;
* fallible operations (`mathutils.Matrix.inverted`, which raises `ValueError`
  on a singular matrix) return `Option`, and `get_active_lights` propagates
  the failure like an uncaught Python exception.
-/

/-- Blender light data types (`light.type`): `POINT`, `SUN`, `SPOT`, `AREA`. -/
inductive LightType where
  | POINT | SUN | SPOT | AREA
deriving DecidableEq

/-- String form of a light type, as read from `L.type`. -/
def lightTypeStr : LightType → String
  | .POINT => "POINT"
  | .SUN => "SUN"
  | .SPOT => "SPOT"
  | .AREA => "AREA"

/-- Blender area-light shapes (`light.shape`). -/
inductive AreaShape where
  | SQUARE | RECTANGLE | DISK | ELLIPSE
deriving DecidableEq

/-- String form of an area shape, as read from `L.shape`. -/
def shapeStr : AreaShape → String
  | .SQUARE => "SQUARE"
  | .RECTANGLE => "RECTANGLE"
  | .DISK => "DISK"
  | .ELLIPSE => "ELLIPSE"

/-- A 3×3 orientation matrix as stored by the host (`matrix_world.to_3x3()`),
with exact machine-float (hence rational) entries. -/
abbrev Mat3 := Matrix (Fin 3) (Fin 3) ℚ

/-- A derived world-space vector (normalisation introduces square roots, so
these live in `ℝ`). -/
abbrev Vec3 := Fin 3 → ℝ

/-- A scene object as enumerated by `bpy.data.objects`, restricted to the
attributes the exporter reads.  `isLight` models `obj.type == "LIGHT"`;
`mat` is `obj.matrix_world.to_3x3()` and `loc` is
`obj.matrix_world.translation`. -/
structure Obj where
  name : String
  isLight : Bool
  hide_render : Bool
  energy : ℚ
  ltype : LightType
  color : ℚ × ℚ × ℚ
  loc : ℚ × ℚ × ℚ
  mat : Mat3
  shape : AreaShape
  size : ℚ
  size_y : ℚ
  spot_size : ℚ
  spot_blend : ℚ

/-- Max number of brightest lights to record per frame (`MAX_ACTIVE_LIGHTS`). -/
def MAX_ACTIVE_LIGHTS : ℕ := 3

/-- Number of camera renders per lighting/material configuration
(`CAMERAS_PER_CONFIG`). -/
def CAMERAS_PER_CONFIG : ℤ := 17

/-- The filter of the collection loop in `get_active_lights`: skip objects
that are not lights, hidden lights (`obj.hide_render`), and lights with
`energy <= 0.0`. -/
def isActiveLight (o : Obj) : Bool :=
  o.isLight && !o.hide_render && !(o.energy ≤ 0 : Bool)

/-- The sort order of `lights.sort(key=lambda o: o.data.energy, reverse=True)`:
`a` may precede `b` iff `a`'s energy is at least `b`'s.  Python's sort is
stable, and stable sorting w.r.t. this total preorder is unique, so
`List.insertionSort energyGE` (which is stable for it, see
`insertionSort_energy_filter_eq`) is an exact model. -/
def energyGE (a b : Obj) : Prop := b.energy ≤ a.energy

instance : DecidableRel energyGE := fun a b =>
  inferInstanceAs (Decidable (b.energy ≤ a.energy))

instance : IsTotal Obj energyGE := ⟨fun a b => le_total b.energy a.energy⟩

instance : IsTrans Obj energyGE := ⟨fun _ _ _ hab hbc => le_trans hbc hab⟩

/-- Lines 100–110 of `get_active_lights`: collect active lights, sort by
energy descending (stably), truncate to `max_n`. -/
def selectedLights (objs : List Obj) (max_n : ℕ) : List Obj :=
  (List.insertionSort energyGE (objs.filter isActiveLight)).take max_n

/-- A CSV cell value: a number, a string (the empty string doubles as the
empty sentinel), or a Python boolean. -/
inductive CellVal where
  | vnum (x : ℝ)
  | vstr (s : String)
  | vbool (b : Bool)

/-- Squared Euclidean norm of a 3-vector. -/
def normSq (v : Vec3) : ℝ := v 0 ^ 2 + v 1 ^ 2 + v 2 ^ 2

open Classical in
/-- Model of `mathutils.Vector.normalized()`: scales a nonzero vector to unit
length and maps the zero vector to the zero vector. -/
noncomputable def normalizeR (v : Vec3) : Vec3 :=
  if v = 0 then 0 else (Real.sqrt (normSq v))⁻¹ • v

/-- Entrywise embedding of an exact host matrix into `ℝ`. -/
noncomputable def castM (M : Mat3) : Matrix (Fin 3) (Fin 3) ℝ :=
  (Rat.castHom ℝ).mapMatrix M

/-- Application of a host matrix to a derived real vector (`M @ v`). -/
noncomputable def mulVecR (M : Mat3) (v : Vec3) : Vec3 := (castM M).mulVec v

/-- Model of `mathutils.Matrix.inverted()`, which raises `ValueError` on a
singular matrix: `none` models the exception. -/
noncomputable def inverted (M : Mat3) : Option Mat3 :=
  if M.det = 0 then none else some M⁻¹

/-- Line 32–34: `obj_forward_world`, the object's forward (−Z) direction in
world space, `(obj.matrix_world.to_3x3() @ Vector((0,0,-1))).normalized()`. -/
noncomputable def obj_forward_world (o : Obj) : Vec3 :=
  normalizeR (mulVecR o.mat ![0, 0, -1])

/-- Line 130: `(cam_rot.inverted() @ dir_world).normalized() if cam_rot else
Vector((0,0,0))`.  `none` as a result models the uncaught `ValueError` from
the unguarded inversion. -/
noncomputable def dirCamOf (cam_rot : Option Mat3) (dir_world : Vec3) : Option Vec3 :=
  match cam_rot with
  | none => some 0
  | some M => (inverted M).map fun Mi => normalizeR (mulVecR Mi dir_world)

/-- One light slot of the output row: the 20 per-light attributes written by
`get_active_lights` under the `light{i}_` prefix. -/
structure Slot where
  name : CellVal
  type : CellVal
  energy : CellVal
  color_r : CellVal
  color_g : CellVal
  color_b : CellVal
  pos_x : CellVal
  pos_y : CellVal
  pos_z : CellVal
  dir_x : CellVal
  dir_y : CellVal
  dir_z : CellVal
  dir_cam_x : CellVal
  dir_cam_y : CellVal
  dir_cam_z : CellVal
  spot_cone_deg : CellVal
  spot_blend : CellVal
  area_shape : CellVal
  area_size_x : CellVal
  area_size_y : CellVal

/-- The all-empty slot emitted for ranks with no corresponding active light
(lines 116–122): the empty-string sentinel in every attribute. -/
def emptySlot : Slot :=
  { name := .vstr "", type := .vstr "", energy := .vstr ""
    color_r := .vstr "", color_g := .vstr "", color_b := .vstr ""
    pos_x := .vstr "", pos_y := .vstr "", pos_z := .vstr ""
    dir_x := .vstr "", dir_y := .vstr "", dir_z := .vstr ""
    dir_cam_x := .vstr "", dir_cam_y := .vstr "", dir_cam_z := .vstr ""
    spot_cone_deg := .vstr "", spot_blend := .vstr ""
    area_shape := .vstr "", area_size_x := .vstr "", area_size_y := .vstr "" }

/-- Model of `math.degrees`: radians to degrees. -/
noncomputable def toDegrees (q : ℚ) : ℝ := (q : ℝ) * 180 / Real.pi

/-- Lines 124–157 of `get_active_lights`: the slot record built for one
selected light.  `safe_float` applied to a value that is already a float is
the identity, so numeric cells are written as `vnum` directly; the result is
`none` exactly when the unguarded camera-matrix inversion in `dirCamOf`
raises. -/
noncomputable def buildSlot (cam_rot : Option Mat3) (o : Obj) : Option Slot :=
  (dirCamOf cam_rot (obj_forward_world o)).map fun dir_cam =>
    { name := .vstr o.name
      type := .vstr (lightTypeStr o.ltype)
      energy := .vnum (o.energy : ℝ)
      color_r := .vnum (o.color.1 : ℝ)
      color_g := .vnum (o.color.2.1 : ℝ)
      color_b := .vnum (o.color.2.2 : ℝ)
      pos_x := .vnum (o.loc.1 : ℝ)
      pos_y := .vnum (o.loc.2.1 : ℝ)
      pos_z := .vnum (o.loc.2.2 : ℝ)
      dir_x := .vnum (obj_forward_world o 0)
      dir_y := .vnum (obj_forward_world o 1)
      dir_z := .vnum (obj_forward_world o 2)
      dir_cam_x := .vnum (dir_cam 0)
      dir_cam_y := .vnum (dir_cam 1)
      dir_cam_z := .vnum (dir_cam 2)
      spot_cone_deg :=
        if lightTypeStr o.ltype = "SPOT" then .vnum (toDegrees o.spot_size) else .vstr ""
      spot_blend :=
        if lightTypeStr o.ltype = "SPOT" then .vnum (o.spot_blend : ℝ) else .vstr ""
      area_shape :=
        if lightTypeStr o.ltype = "AREA" then .vstr (shapeStr o.shape) else .vstr ""
      area_size_x :=
        if lightTypeStr o.ltype = "AREA" then .vnum (o.size : ℝ) else .vstr ""
      area_size_y :=
        if lightTypeStr o.ltype = "AREA" then
          (if shapeStr o.shape = "RECTANGLE" ∨ shapeStr o.shape = "ELLIPSE" then
            .vnum (o.size_y : ℝ) else .vnum (o.size : ℝ))
        else .vstr "" }

/-- The dictionary returned by `get_active_lights`: the count of active
lights plus the `MAX_ACTIVE_LIGHTS` slot groups, in rank order. -/
structure LightsOut where
  num_active_lights : ℕ
  slots : List Slot

/-- Lines 93–159: `get_active_lights`.  `cam_rot` is
`scene.camera.matrix_world.to_3x3() if scene.camera else None`; `objs` is the
`bpy.data.objects` enumeration.  The result is `none` exactly when the
per-light loop raises on a singular camera matrix. -/
noncomputable def get_active_lights (cam_rot : Option Mat3) (objs : List Obj)
    (max_n : ℕ := MAX_ACTIVE_LIGHTS) : Option LightsOut :=
  let sel := selectedLights objs max_n
  ((List.range max_n).mapM fun i =>
      if h : i < sel.length then buildSlot cam_rot (sel.get ⟨i, h⟩)
      else some emptySlot).map
    fun slots => { num_active_lights := sel.length, slots := slots }

/-- Helper: a successful `Option`-valued `mapM` has the same length as its
input and succeeds pointwise. -/
lemma mapM_option_spec {α β : Type} (f : α → Option β) :
    ∀ (l : List α) (bs : List β), l.mapM f = some bs →
      bs.length = l.length ∧
      ∀ i (h1 : i < l.length) (h2 : i < bs.length), f l[i] = some bs[i]
  | [], bs, h => by
    simp only [List.mapM_nil, pure, Option.some.injEq] at h
    subst h
    exact ⟨rfl, fun i h1 _ => absurd h1 (Nat.not_lt_zero i)⟩
  | a :: l, bs, h => by
    rw [List.mapM_cons] at h
    cases fa : f a with
    | none => rw [fa] at h; simp at h
    | some b =>
      rw [fa] at h
      cases fl : l.mapM f with
      | none => rw [fl] at h; simp at h
      | some bs' =>
        rw [fl] at h
        simp only [Option.bind_eq_bind, Option.some_bind, pure, Option.some.injEq] at h
        subst h
        obtain ⟨hlen, hget⟩ := mapM_option_spec f l bs' fl
        refine ⟨by simp [hlen], fun i h1 h2 => ?_⟩
        cases i with
        | zero => simpa using fa
        | succ j =>
          simp only [List.getElem_cons_succ]
          exact hget j (by simpa using h1) (by simpa [hlen] using h1)

/-- Helper: `Option`-valued `mapM` succeeds when every element succeeds. -/
lemma mapM_option_isSome {α β : Type} (f : α → Option β) :
    ∀ l : List α, (∀ a ∈ l, (f a).isSome) → (l.mapM f).isSome
  | [], _ => by rw [List.mapM_nil]; rfl
  | a :: l, h => by
    rw [List.mapM_cons]
    obtain ⟨b, hb⟩ := Option.isSome_iff_exists.mp (h a (List.mem_cons_self a l))
    obtain ⟨bs, hbs⟩ := Option.isSome_iff_exists.mp
      (mapM_option_isSome f l fun x hx => h x (List.mem_cons_of_mem a hx))
    rw [hb, hbs]
    simp [pure]

/-- Helper: the number of selected lights is the active count capped at the
capacity. -/
lemma selectedLights_length (objs : List Obj) (n : ℕ) :
    (selectedLights objs n).length = min n (objs.filter isActiveLight).length := by
  simp [selectedLights]

/-- Helper: every selected light is an active light of the scene. -/
lemma selectedLights_mem {objs : List Obj} {n : ℕ} {o : Obj}
    (h : o ∈ selectedLights objs n) : o ∈ objs ∧ isActiveLight o = true := by
  have h1 : o ∈ List.insertionSort energyGE (objs.filter isActiveLight) :=
    List.mem_of_mem_take h
  rw [List.mem_insertionSort, List.mem_filter] at h1
  exact h1

/-- Helper: structural description of a successful `get_active_lights` call:
the reported count is the number of selected lights, there are exactly
`MAX_ACTIVE_LIGHTS` slots, slot `i` is built from the `i`-th selected light
when one exists and is the all-empty slot otherwise. -/
lemma get_active_lights_eq_some {cam : Option Mat3} {objs : List Obj} {out : LightsOut}
    (h : get_active_lights cam objs = some out) :
    out.num_active_lights = (selectedLights objs MAX_ACTIVE_LIGHTS).length ∧
    out.slots.length = MAX_ACTIVE_LIGHTS ∧
    ∀ i (h2 : i < out.slots.length),
      (∀ hs : i < (selectedLights objs MAX_ACTIVE_LIGHTS).length,
        buildSlot cam ((selectedLights objs MAX_ACTIVE_LIGHTS).get ⟨i, hs⟩) =
          some (out.slots.get ⟨i, h2⟩)) ∧
      ((selectedLights objs MAX_ACTIVE_LIGHTS).length ≤ i →
        out.slots.get ⟨i, h2⟩ = emptySlot) := by
  rw [get_active_lights, Option.map_eq_some'] at h
  obtain ⟨slots, hmap, hout⟩ := h
  obtain ⟨hlen, hget⟩ := mapM_option_spec _ _ _ hmap
  subst hout
  have hlen3 : slots.length = MAX_ACTIVE_LIGHTS := by
    simpa [MAX_ACTIVE_LIGHTS] using hlen
  refine ⟨rfl, hlen3, fun i h2 => ?_⟩
  have hi3 : i < MAX_ACTIVE_LIGHTS := hlen3 ▸ h2
  have hr : i < (List.range MAX_ACTIVE_LIGHTS).length := by simpa using hi3
  have := hget i hr h2
  rw [List.getElem_range] at this
  constructor
  · intro hs
    rw [dif_pos hs] at this
    simpa [List.get_eq_getElem] using this
  · intro hns
    rw [dif_neg (Nat.not_lt.mpr hns)] at this
    simp only [Option.some.injEq] at this
    simp [List.get_eq_getElem, ← this]

/-- Example light object: a visible point light of the given energy placed at
the origin with identity orientation. -/
def mkLight (nm : String) (e : ℚ) (t : LightType) (hid : Bool) : Obj :=
  { name := nm, isLight := true, hide_render := hid, energy := e, ltype := t
    color := (1, 1, 1), loc := (0, 0, 0), mat := 1, shape := .SQUARE
    size := 0, size_y := 0, spot_size := 0, spot_blend := 0 }

example :
    (selectedLights
      [mkLight "A" 1 .POINT false, mkLight "B" 5 .POINT false,
       mkLight "C" 3 .POINT false, mkLight "D" 5 .POINT false] 3).map Obj.name =
    ["B", "D", "C"] := by decide

example :
    (selectedLights
      [mkLight "A" 1 .POINT false, mkLight "B" 5 .POINT true,
       mkLight "C" 0 .SPOT false] 3).map Obj.name = ["A"] := by decide

/-- C1: for every scene light collection and capacity `N = 3`,
`get_active_lights` reports `num_active_lights = min N #{lights with render
visibility enabled and strictly positive intensity}`; every slot
`i < num_active_lights` is built from an active light of the scene, and every
slot `i ≥ num_active_lights` is the empty-string sentinel in all 20
attributes. -/
theorem get_active_lights_count_and_padding (cam : Option Mat3) (objs : List Obj)
    (out : LightsOut) (h : get_active_lights cam objs = some out) :
    out.num_active_lights = min MAX_ACTIVE_LIGHTS (objs.filter isActiveLight).length ∧
    out.slots.length = MAX_ACTIVE_LIGHTS ∧
    (∀ i (hi : i < out.slots.length), out.num_active_lights ≤ i →
      out.slots.get ⟨i, hi⟩ = emptySlot) ∧
    (∀ i (hi : i < out.slots.length), i < out.num_active_lights →
      ∃ o, o ∈ objs ∧ isActiveLight o = true ∧
        buildSlot cam o = some (out.slots.get ⟨i, hi⟩)) := by
  obtain ⟨hnum, hlen, hslot⟩ := get_active_lights_eq_some h
  refine ⟨by rw [hnum, selectedLights_length], hlen, ?_, ?_⟩
  · intro i hi hle
    exact (hslot i hi).2 (hnum ▸ hle)
  · intro i hi hlt
    have hs : i < (selectedLights objs MAX_ACTIVE_LIGHTS).length := hnum ▸ hlt
    obtain ⟨ho1, ho2⟩ := selectedLights_mem
      (List.get_mem (selectedLights objs MAX_ACTIVE_LIGHTS) i hs)
    exact ⟨_, ho1, ho2, (hslot i hi).1 hs⟩

/-- Witness scene for C1: one light that fails the intensity filter, one
non-light object. -/
def exObjsC1 : List Obj :=
  [mkLight "Dim" 0 .POINT false, { mkLight "Mesh" 9 .POINT false with isLight := false }]

/-- Witness for C1 at a concrete scene with no camera: the reported count is
`min 3 0` and slot 2 is the all-empty slot. -/
theorem c1_witness :
    (0 : ℕ) = min MAX_ACTIVE_LIGHTS ((exObjsC1.filter isActiveLight).length) ∧
    ([emptySlot, emptySlot, emptySlot] : List Slot).get ⟨2, by decide⟩ = emptySlot := by
  have h := get_active_lights_count_and_padding none exObjsC1
    ⟨0, [emptySlot, emptySlot, emptySlot]⟩ (by rfl)
  exact ⟨h.1, h.2.2.1 2 (by decide) (by decide)⟩

/-- Helper: filtering by one energy value commutes with `orderedInsert`,
the inserted element landing in front of the equal-energy class it joins. -/
lemma filter_orderedInsert_energy (e : ℚ) (a : Obj) (l : List Obj) :
    (List.orderedInsert energyGE a l).filter (fun o => decide (o.energy = e)) =
      if a.energy = e then a :: l.filter (fun o => decide (o.energy = e))
      else l.filter (fun o => decide (o.energy = e)) := by
  have hsplit : l.filter (fun o => decide (o.energy = e)) =
      (List.takeWhile (fun b => decide ¬energyGE a b) l).filter
          (fun o => decide (o.energy = e)) ++
        (List.dropWhile (fun b => decide ¬energyGE a b) l).filter
          (fun o => decide (o.energy = e)) := by
    rw [← List.filter_append,
      List.takeWhile_append_dropWhile (fun b => decide ¬energyGE a b) l]
  rw [List.orderedInsert_eq_take_drop, List.filter_append]
  by_cases hae : a.energy = e
  · have htake : (List.takeWhile (fun b => decide ¬energyGE a b) l).filter
        (fun o => decide (o.energy = e)) = [] := by
      rw [List.filter_eq_nil_iff]
      intro b hb
      have hq := List.mem_takeWhile_imp hb
      simp only [decide_eq_true_eq] at hq ⊢
      intro hbe
      exact hq (le_of_eq (hbe.trans hae.symm))
    rw [if_pos hae, htake, List.nil_append, hsplit, htake, List.nil_append,
      List.filter_cons_of_pos (by simpa using hae)]
  · rw [if_neg hae, hsplit, List.filter_cons_of_neg (by simpa using hae)]

/-- Helper: stability of the energy sort, stated through filters: for every
energy value, the lights of exactly that energy appear in the sorted list in
their original enumeration order. -/
lemma insertionSort_energy_filter_eq (e : ℚ) (l : List Obj) :
    (List.insertionSort energyGE l).filter (fun o => decide (o.energy = e)) =
      l.filter (fun o => decide (o.energy = e)) := by
  induction l with
  | nil => rfl
  | cons a l ih =>
    rw [List.insertionSort, filter_orderedInsert_energy, ih, List.filter_cons]
    by_cases hae : a.energy = e
    · rw [if_pos hae]; simp [hae]
    · rw [if_neg hae]; simp [hae]

/-- Numeric-cell comparison: both cells hold numbers and the first is at
least the second. -/
def cellNumGE (a b : CellVal) : Prop :=
  match a, b with
  | .vnum x, .vnum y => y ≤ x
  | _, _ => False

/-- Helper: the energy cell of a built slot is the light's energy. -/
lemma buildSlot_energy {cam : Option Mat3} {o : Obj} {s : Slot}
    (h : buildSlot cam o = some s) : s.energy = .vnum (o.energy : ℝ) := by
  rw [buildSlot, Option.map_eq_some'] at h
  obtain ⟨d, -, h2⟩ := h
  rw [← h2]

/-- C2: populated slots are ordered by intensity descending (slot `i` has
energy ≥ slot `j` for `i ≤ j < num_active_lights`), and the underlying
selection is a permutation of the active lights that preserves, for each
intensity value, the original enumeration order of the lights having it —
i.e. a stable sort on intensity descending, truncated to the capacity. -/
theorem get_active_lights_sorted_stable (cam : Option Mat3) (objs : List Obj)
    (out : LightsOut) (h : get_active_lights cam objs = some out) :
    (∀ i j (hi : i < out.slots.length) (hj : j < out.slots.length),
      i ≤ j → j < out.num_active_lights →
      cellNumGE (out.slots.get ⟨i, hi⟩).energy (out.slots.get ⟨j, hj⟩).energy) ∧
    List.Perm (List.insertionSort energyGE (objs.filter isActiveLight))
      (objs.filter isActiveLight) ∧
    (∀ e : ℚ,
      (List.insertionSort energyGE (objs.filter isActiveLight)).filter
          (fun o => decide (o.energy = e)) =
        (objs.filter isActiveLight).filter (fun o => decide (o.energy = e))) := by
  obtain ⟨hnum, hlen, hslot⟩ := get_active_lights_eq_some h
  refine ⟨?_, List.perm_insertionSort energyGE _,
    fun e => insertionSort_energy_filter_eq e _⟩
  intro i j hi hj hij hjn
  have hsj : j < (selectedLights objs MAX_ACTIVE_LIGHTS).length := hnum ▸ hjn
  have hsi : i < (selectedLights objs MAX_ACTIVE_LIGHTS).length := lt_of_le_of_lt hij hsj
  have hei := buildSlot_energy ((hslot i hi).1 hsi)
  have hej := buildSlot_energy ((hslot j hj).1 hsj)
  rw [hei, hej]
  show ((((selectedLights objs MAX_ACTIVE_LIGHTS).get ⟨j, hsj⟩).energy : ℚ) : ℝ) ≤
    ((((selectedLights objs MAX_ACTIVE_LIGHTS).get ⟨i, hsi⟩).energy : ℚ) : ℝ)
  rw [Rat.cast_le]
  have hpair : List.Pairwise energyGE (selectedLights objs MAX_ACTIVE_LIGHTS) :=
    List.Pairwise.sublist (List.take_sublist _ _)
      (List.sorted_insertionSort energyGE (objs.filter isActiveLight))
  rcases Nat.lt_or_ge i j with hlt | hge
  · exact List.pairwise_iff_get.mp hpair ⟨i, hsi⟩ ⟨j, hsj⟩ hlt
  · have : i = j := le_antisymm hij hge
    subst this
    exact le_refl _

/-- Witness scene for C2: four visible point lights, two tied at energy 5. -/
def exObjsC2 : List Obj :=
  [mkLight "A" 1 .POINT false, mkLight "B" 5 .POINT false,
   mkLight "C" 3 .POINT false, mkLight "D" 5 .POINT false]

/-- Witness for C2 at a concrete scene: the equal-energy class at intensity 5
keeps its enumeration order through the ranking sort. -/
theorem c2_witness :
    (List.insertionSort energyGE (exObjsC2.filter isActiveLight)).filter
        (fun o => decide (o.energy = 5)) =
      (exObjsC2.filter isActiveLight).filter (fun o => decide (o.energy = 5)) :=
  (get_active_lights_sorted_stable none exObjsC2
    ((get_active_lights none exObjsC2).get (by rfl))
    (Option.some_get (by rfl)).symm).2.2 5

/-- Lines 204–205 of the main loop: `camera_png = (idx % CAMERAS_PER_CONFIG)
+ 1` with `idx = frame - fs`; Python `%` on a positive modulus is `Int.fmod`. -/
def cameraPngOf (fs frame : ℤ) : ℤ :=
  Int.fmod (frame - fs) CAMERAS_PER_CONFIG + 1

/-- Line 206 of the main loop: `config_id = idx // CAMERAS_PER_CONFIG`;
Python `//` is floor division, i.e. `Int.fdiv`. -/
def configIdOf (fs frame : ℤ) : ℤ :=
  Int.fdiv (frame - fs) CAMERAS_PER_CONFIG

/-- C3: for every frame in `[frame_start, frame_end]`, the emitted camera
index is `(idx mod C) + 1` and lies in `[1, C]`, and the emitted `config_id`
is `idx div C` (integer division, here euclidean = floor since `C > 0`) and
is monotonically non-decreasing in the frame. -/
theorem camera_png_config_id_props (fs fe frame : ℤ)
    (h1 : fs ≤ frame) (h2 : frame ≤ fe) :
    (1 ≤ cameraPngOf fs frame ∧ cameraPngOf fs frame ≤ CAMERAS_PER_CONFIG) ∧
    configIdOf fs frame = (frame - fs) / CAMERAS_PER_CONFIG ∧
    (∀ frame2, frame ≤ frame2 → configIdOf fs frame ≤ configIdOf fs frame2) := by
  have hC : (0 : ℤ) < CAMERAS_PER_CONFIG := by norm_num [CAMERAS_PER_CONFIG]
  have hfd : ∀ g : ℤ, configIdOf fs g = (g - fs) / CAMERAS_PER_CONFIG := fun g => by
    rw [configIdOf, Int.fdiv_eq_ediv _ (le_of_lt hC)]
  refine ⟨⟨?_, ?_⟩, hfd frame, fun frame2 hle => ?_⟩
  · rw [cameraPngOf, Int.fmod_eq_emod _ (le_of_lt hC)]
    have := Int.emod_nonneg (frame - fs) (ne_of_gt hC)
    omega
  · rw [cameraPngOf, Int.fmod_eq_emod _ (le_of_lt hC)]
    have := Int.emod_lt_of_pos (frame - fs) hC
    omega
  · rw [hfd frame, hfd frame2]
    exact Int.ediv_le_ediv hC (by omega)

/-- Witness for C3 at `frame_start = 1`, `frame_end = 17`, `frame = 5`:
the camera index is within `[1, 17]` and `config_id` is monotone up to
frame 17. -/
theorem c3_witness :
    (1 ≤ cameraPngOf 1 5 ∧ cameraPngOf 1 5 ≤ CAMERAS_PER_CONFIG) ∧
    configIdOf 1 5 = (5 - 1) / CAMERAS_PER_CONFIG ∧
    (∀ frame2, (5 : ℤ) ≤ frame2 → configIdOf 1 5 ≤ configIdOf 1 frame2) :=
  camera_png_config_id_props 1 17 5 (by norm_num) (by norm_num)

/-- C4: per-type slot fields.  A spot light emits its cone angle converted
from radians to degrees plus its blend factor (and sentinel area fields); an
area light emits a shape tag and `size_x`, with `size_y` read independently
exactly for rectangular/elliptical shapes and mirroring `size_x` otherwise
(and sentinel spot fields); every other light type leaves all spot and area
fields as the empty sentinel. -/
theorem buildSlot_type_fields (cam : Option Mat3) (o : Obj)
    (h : (buildSlot cam o).isSome) :
    (o.ltype = LightType.SPOT →
      ((buildSlot cam o).get h).spot_cone_deg = .vnum (toDegrees o.spot_size) ∧
      ((buildSlot cam o).get h).spot_blend = .vnum (o.spot_blend : ℝ) ∧
      ((buildSlot cam o).get h).area_shape = .vstr "" ∧
      ((buildSlot cam o).get h).area_size_x = .vstr "" ∧
      ((buildSlot cam o).get h).area_size_y = .vstr "") ∧
    (o.ltype = LightType.AREA →
      ((buildSlot cam o).get h).area_shape = .vstr (shapeStr o.shape) ∧
      ((buildSlot cam o).get h).area_size_x = .vnum (o.size : ℝ) ∧
      ((o.shape = AreaShape.RECTANGLE ∨ o.shape = AreaShape.ELLIPSE →
        ((buildSlot cam o).get h).area_size_y = .vnum (o.size_y : ℝ)) ∧
       (¬(o.shape = AreaShape.RECTANGLE ∨ o.shape = AreaShape.ELLIPSE) →
        ((buildSlot cam o).get h).area_size_y = ((buildSlot cam o).get h).area_size_x)) ∧
      ((buildSlot cam o).get h).spot_cone_deg = .vstr "" ∧
      ((buildSlot cam o).get h).spot_blend = .vstr "") ∧
    (o.ltype ≠ LightType.SPOT → o.ltype ≠ LightType.AREA →
      ((buildSlot cam o).get h).spot_cone_deg = .vstr "" ∧
      ((buildSlot cam o).get h).spot_blend = .vstr "" ∧
      ((buildSlot cam o).get h).area_shape = .vstr "" ∧
      ((buildSlot cam o).get h).area_size_x = .vstr "" ∧
      ((buildSlot cam o).get h).area_size_y = .vstr "") := by
  obtain ⟨s, hs⟩ := Option.isSome_iff_exists.mp h
  have hget : (buildSlot cam o).get h = s := by simp [hs]
  rw [buildSlot, Option.map_eq_some'] at hs
  obtain ⟨d, hd, hrec⟩ := hs
  rw [hget, ← hrec]
  refine ⟨fun hspot => ?_, fun harea => ?_, fun hns hna => ?_⟩
  · rw [hspot]
    simp [lightTypeStr]
  · rw [harea]
    simp only [lightTypeStr]
    refine ⟨by simp, by simp, ⟨fun hsh => ?_, fun hsh => ?_⟩, by simp, by simp⟩
    · rcases hsh with hsh | hsh <;> rw [hsh] <;> simp [shapeStr]
    · cases hshape : o.shape <;> simp [hshape, shapeStr] at hsh ⊢
  · cases hlt : o.ltype <;> simp [hlt] at hns hna ⊢ <;> simp [lightTypeStr]

/-- Witness light for C4: a visible spot light with cone angle 1 rad and
blend 1/2. -/
def exSpotLight : Obj :=
  { mkLight "Spot" 2 .SPOT false with spot_size := 1, spot_blend := 1/2 }

/-- Witness for C4 at a concrete spot light with no camera: the emitted cone
angle is `degrees(spot_size)` and the area fields are the sentinel. -/
theorem c4_witness :
    ((buildSlot none exSpotLight).get (by rfl)).spot_cone_deg =
      .vnum (toDegrees exSpotLight.spot_size) ∧
    ((buildSlot none exSpotLight).get (by rfl)).area_size_y = .vstr "" :=
  ⟨((buildSlot_type_fields none exSpotLight (by rfl)).1 rfl).1,
   ((buildSlot_type_fields none exSpotLight (by rfl)).1 rfl).2.2.2.2⟩

/-- Helper: the squared norm is nonnegative. -/
lemma normSq_nonneg (v : Vec3) : 0 ≤ normSq v := by
  rw [normSq]
  positivity

/-- Helper: the squared norm vanishes only on the zero vector. -/
lemma normSq_eq_zero_iff (v : Vec3) : normSq v = 0 ↔ v = 0 := by
  constructor
  · intro h
    rw [normSq] at h
    funext i
    have h0 : v 0 = 0 := by nlinarith [sq_nonneg (v 0), sq_nonneg (v 1), sq_nonneg (v 2)]
    have h1 : v 1 = 0 := by nlinarith [sq_nonneg (v 0), sq_nonneg (v 1), sq_nonneg (v 2)]
    have h2 : v 2 = 0 := by nlinarith [sq_nonneg (v 0), sq_nonneg (v 1), sq_nonneg (v 2)]
    fin_cases i <;> simpa
  · intro h
    rw [h, normSq]
    simp

/-- Helper: normalising a nonzero vector yields a unit vector (in the sense
of the squared norm). -/
lemma normSq_normalizeR {v : Vec3} (hv : v ≠ 0) : normSq (normalizeR v) = 1 := by
  have hS : 0 < normSq v :=
    lt_of_le_of_ne (normSq_nonneg v) (fun h => hv ((normSq_eq_zero_iff v).mp h.symm))
  rw [normalizeR, if_neg hv]
  have hsq : Real.sqrt (normSq v) ^ 2 = normSq v := Real.sq_sqrt (le_of_lt hS)
  have hexp : normSq ((Real.sqrt (normSq v))⁻¹ • v) =
      ((Real.sqrt (normSq v))⁻¹) ^ 2 * normSq v := by
    rw [normSq, normSq]
    simp only [Pi.smul_apply, smul_eq_mul]
    ring
  rw [hexp, inv_pow, hsq]
  exact inv_mul_cancel₀ (ne_of_gt hS)

/-- Helper: normalising a nonzero vector yields a nonzero vector. -/
lemma normalizeR_ne_zero {v : Vec3} (hv : v ≠ 0) : normalizeR v ≠ 0 := by
  intro h
  have h1 := normSq_normalizeR hv
  rw [h, normSq] at h1
  simp at h1

/-- Helper: a nonsingular host matrix applied to a nonzero real vector gives
a nonzero vector (via its inverse). -/
lemma mulVecR_inv_ne_zero {M : Mat3} {w : Vec3} (hdet : M.det ≠ 0) (hw : w ≠ 0) :
    mulVecR M⁻¹ w ≠ 0 := by
  intro hz
  have hcomp : mulVecR M (mulVecR M⁻¹ w) = w := by
    rw [mulVecR, mulVecR, Matrix.mulVec_mulVec, castM, castM,
      ← map_mul ((Rat.castHom ℝ).mapMatrix) M M⁻¹,
      Matrix.mul_nonsing_inv M (isUnit_iff_ne_zero.mpr hdet),
      map_one, Matrix.one_mulVec]
  rw [hz, mulVecR, Matrix.mulVec_zero] at hcomp
  exact hw hcomp.symm

/-- Degenerate witness light for the C5 counterexample: a visible,
positive-energy light whose world orientation matrix is the zero matrix, so
its world-space forward direction collapses to the zero vector. -/
def exObjC5 : Obj := { mkLight "Degenerate" 1 .POINT false with mat := 0 }

/-- C5 counterexample: with a camera present (identity orientation,
invertible), the camera-relative direction computed for `exObjC5` is the
zero vector — its squared norm is 0, not 1 — refuting unit length "whenever
a camera is present". -/
theorem c5_counterexample :
    (dirCamOf (some 1) (obj_forward_world exObjC5)).map normSq = some 0 ∧
    (0 : ℝ) ≠ 1 := by
  constructor
  · have hfw : obj_forward_world exObjC5 = 0 := by
      rw [obj_forward_world]
      have : mulVecR exObjC5.mat ![0, 0, -1] = 0 := by
        rw [mulVecR]
        have hm : castM exObjC5.mat = 0 := by
          rw [castM]
          exact map_zero _
        rw [hm, Matrix.zero_mulVec]
      rw [this, normalizeR, if_pos rfl]
    rw [hfw, dirCamOf]
    have hinv : inverted 1 = some 1 := by
      rw [inverted, if_neg (by simp)]
      rw [inv_one]
    rw [hinv]
    have : normalizeR (mulVecR 1 (0 : Vec3)) = 0 := by
      rw [mulVecR, Matrix.mulVec_zero, normalizeR, if_pos rfl]
    simp only [Option.map_some', this]
    rw [normSq]
    norm_num
  · norm_num

/-- C5 (amended): the camera-relative direction is
`normalize(camRot⁻¹ ⋅ dir_world)`; it is a unit vector whenever a camera is
present, its orientation matrix is invertible, and the light's world-space
forward direction is nonzero (a degenerate light orientation yields the zero
vector instead); with no camera it is the exact zero vector and the
computation does not fail. -/
theorem dirCam_unit_amended (M : Mat3) (o : Obj)
    (hdet : M.det ≠ 0) (hw : obj_forward_world o ≠ 0) :
    dirCamOf (some M) (obj_forward_world o) =
      some (normalizeR (mulVecR M⁻¹ (obj_forward_world o))) ∧
    normSq (normalizeR (mulVecR M⁻¹ (obj_forward_world o))) = 1 ∧
    dirCamOf none (obj_forward_world o) = some 0 := by
  refine ⟨?_, ?_, rfl⟩
  · rw [dirCamOf, inverted, if_neg hdet]
    rfl
  · exact normSq_normalizeR (mulVecR_inv_ne_zero hdet hw)

/-- Witness light for C5: a visible point light with identity orientation. -/
def exKeyLight : Obj := mkLight "Key" 1 .POINT false

/-- Witness for C5 (amended) at the identity camera and `exKeyLight`: the
camera-relative direction is a unit vector. -/
theorem c5_witness :
    normSq (normalizeR (mulVecR (1 : Mat3)⁻¹ (obj_forward_world exKeyLight))) = 1 := by
  have hne : (![0, 0, -1] : Vec3) ≠ 0 := by
    intro h
    have := congrFun h 2
    norm_num at this
  have hfw : obj_forward_world exKeyLight = normalizeR ![0, 0, -1] := by
    rw [obj_forward_world, mulVecR]
    have hm : castM exKeyLight.mat = 1 := by
      rw [castM]
      exact map_one _
    rw [hm, Matrix.one_mulVec]
  have hw : obj_forward_world exKeyLight ≠ 0 := by
    rw [hfw]
    exact normalizeR_ne_zero hne
  exact (dirCam_unit_amended 1 exKeyLight (by simp) hw).2.1

/-- Helper: with a singular camera matrix, building a slot for any light
raises (returns `none`). -/
lemma buildSlot_singular {M : Mat3} (hdet : M.det = 0) (o : Obj) :
    buildSlot (some M) o = none := by
  rw [buildSlot, dirCamOf, inverted, if_pos hdet]
  rfl

/-- Helper: with an invertible camera matrix (or no camera), building a slot
never raises. -/
lemma buildSlot_isSome {cam : Option Mat3}
    (hc : ∀ M, cam = some M → M.det ≠ 0) (o : Obj) :
    (buildSlot cam o).isSome := by
  rw [buildSlot]
  cases cam with
  | none => rfl
  | some M =>
    rw [dirCamOf, inverted, if_neg (hc M rfl)]
    rfl

/-- C10 counterexample: with a singular camera matrix but no active lights,
`get_active_lights` does not fail — it succeeds with an all-empty ranking —
so a singular camera orientation alone does not make the run fail. -/
theorem c10_counterexample :
    Matrix.det (0 : Mat3) = 0 ∧
    get_active_lights (some 0) ([] : List Obj) =
      some { num_active_lights := 0, slots := [emptySlot, emptySlot, emptySlot] } := by
  constructor
  · exact Matrix.det_zero ⟨0⟩
  · rfl

/-- C10 (amended): the camera-space light direction is computed with an
unguarded inversion of the camera orientation matrix: whenever at least one
light is selected, a singular camera matrix makes `get_active_lights` fail
(rather than degrade to an empty field), and with an invertible camera
matrix — or no camera — the function is total. -/
theorem get_active_lights_inversion_totality (M : Mat3) (objs : List Obj) :
    (M.det = 0 → selectedLights objs MAX_ACTIVE_LIGHTS ≠ [] →
      get_active_lights (some M) objs = none) ∧
    (M.det ≠ 0 → (get_active_lights (some M) objs).isSome) ∧
    (get_active_lights none objs).isSome := by
  refine ⟨fun hdet hne => ?_, fun hdet => ?_, ?_⟩
  · have h0 : 0 < (selectedLights objs MAX_ACTIVE_LIGHTS).length :=
      List.length_pos.mpr hne
    rw [get_active_lights]
    have hrange : List.range MAX_ACTIVE_LIGHTS = 0 :: [1, 2] := rfl
    rw [hrange, List.mapM_cons, dif_pos h0, buildSlot_singular hdet]
    rfl
  · have h := mapM_option_isSome
      (fun i => if h : i < (selectedLights objs MAX_ACTIVE_LIGHTS).length then
          buildSlot (some M) ((selectedLights objs MAX_ACTIVE_LIGHTS).get ⟨i, h⟩)
        else some emptySlot)
      (List.range MAX_ACTIVE_LIGHTS)
      (fun i _ => by
        by_cases hi : i < (selectedLights objs MAX_ACTIVE_LIGHTS).length
        · simp only [dif_pos hi]
          exact buildSlot_isSome
            (fun N hN => by rw [Option.some.injEq] at hN; rw [← hN]; exact hdet) _
        · simp only [dif_neg hi]
          rfl)
    rw [get_active_lights, Option.isSome_map']
    exact h
  · have h := mapM_option_isSome
      (fun i => if h : i < (selectedLights objs MAX_ACTIVE_LIGHTS).length then
          buildSlot none ((selectedLights objs MAX_ACTIVE_LIGHTS).get ⟨i, h⟩)
        else some emptySlot)
      (List.range MAX_ACTIVE_LIGHTS)
      (fun i _ => by
        by_cases hi : i < (selectedLights objs MAX_ACTIVE_LIGHTS).length
        · simp only [dif_pos hi]
          exact buildSlot_isSome (fun N hN => by cases hN) _
        · simp only [dif_neg hi]
          rfl)
    rw [get_active_lights, Option.isSome_map']
    exact h

/-- Witness for C10 (amended) at the zero camera matrix and a scene with one
active light: the run fails; and at the identity camera matrix it succeeds. -/
theorem c10_witness :
    get_active_lights (some 0) [mkLight "A" 1 .POINT false] = none ∧
    (get_active_lights (some 1) [mkLight "A" 1 .POINT false]).isSome :=
  ⟨(get_active_lights_inversion_totality 0 [mkLight "A" 1 .POINT false]).1
      (Matrix.det_zero ⟨0⟩) (List.length_pos.mp (by decide)),
   (get_active_lights_inversion_totality 1 [mkLight "A" 1 .POINT false]).2.1 (by simp)⟩


/-- The known lamp-object map: render-hide state per object name; `none`
models an object absent from `bpy.data.objects`. -/
def SceneLamps : Type := String → Option Bool

/-- Object names of the three single lamps plus the tri-rig lamps
(`ALL_LIGHT_NAMES = list(LIGHTS_SINGLE.values()) + LIGHTS_TRI`). -/
def ALL_LIGHT_NAMES : List String :=
  ["Area", "Point", "Spot", "TriLamp-Key", "TriLamp-Fill", "TriLamp-Back"]

/-- Object names of the three-point rig (`LIGHTS_TRI`). -/
def LIGHTS_TRI : List String := ["TriLamp-Key", "TriLamp-Fill", "TriLamp-Back"]

/-- The `LIGHTS_SINGLE` dict, read as setup-name → lamp-object name. -/
def LIGHTS_SINGLE (setup : String) : Option String :=
  if setup = "Area Light" then some "Area"
  else if setup = "Point Light" then some "Point"
  else if setup = "Spot Light" then some "Spot"
  else none

/-- Model of Python `str.startswith` over the character lists (Lean's
built-in `String.startsWith` is equivalent but does not reduce in the
kernel). -/
def strStartsWith (s p : String) : Bool := p.data.isPrefixOf s.data

/-- Model of `obj = bpy.data.objects.get(name); if obj: obj.hide_render = b`:
update the hide flag only when the object exists. -/
def setHideRender (s : SceneLamps) (nm : String) (b : Bool) : SceneLamps :=
  fun m => if m = nm then (s nm).map fun _ => b else s m

/-- Lines 43–45 of `set_light_setup`: hide every known lamp. -/
def hideAllLamps (s : SceneLamps) : SceneLamps :=
  ALL_LIGHT_NAMES.foldl (fun acc nm => setHideRender acc nm true) s

/-- Lines 36–57: `set_light_setup` — hide every known lamp, then re-enable
the lamp(s) of the requested setup; `HDRI`-prefixed setups (the final `elif
... pass` branch) and unknown setups enable none. -/
def set_light_setup (setup : String) (s : SceneLamps) : SceneLamps :=
  match LIGHTS_SINGLE setup with
  | some lamp => setHideRender (hideAllLamps s) lamp false
  | none =>
    if setup = "Tri Light" then
      LIGHTS_TRI.foldl (fun acc nm => setHideRender acc nm false) (hideAllLamps s)
    else hideAllLamps s

/-- The lamps belonging to a setup: the single named lamp, the tri-rig
lamps, or none for environment-only (and unknown) setups. -/
def setupLamps (setup : String) : List String :=
  match LIGHTS_SINGLE setup with
  | some lamp => [lamp]
  | none => if setup = "Tri Light" then LIGHTS_TRI else []

/-- Helper: pointwise effect of `setHideRender`. -/
lemma setHideRender_apply (s : SceneLamps) (nm m : String) (b : Bool) :
    setHideRender s nm b m = if m = nm then (s m).map (fun _ => b) else s m := by
  rw [setHideRender]
  by_cases hm : m = nm
  · rw [if_pos hm, if_pos hm, hm]
  · rw [if_neg hm, if_neg hm]

/-- Helper: pointwise effect of folding `setHideRender` over a name list. -/
lemma foldl_setHideRender_apply (b : Bool) :
    ∀ (L : List String) (s : SceneLamps) (m : String),
      (L.foldl (fun acc nm => setHideRender acc nm b) s) m =
        if m ∈ L then (s m).map (fun _ => b) else s m
  | [], s, m => by simp
  | nm :: L, s, m => by
    rw [List.foldl_cons, foldl_setHideRender_apply b L (setHideRender s nm b) m]
    by_cases hL : m ∈ L
    · rw [if_pos hL, if_pos (List.mem_cons_of_mem nm hL), setHideRender_apply]
      by_cases hm : m = nm
      · rw [if_pos hm, Option.map_map]
        rfl
      · rw [if_neg hm]
    · rw [if_neg hL, setHideRender_apply]
      by_cases hm : m = nm
      · rw [if_pos hm, if_pos (List.mem_cons.mpr (Or.inl hm))]
      · rw [if_neg hm, if_neg (fun hc => (List.mem_cons.mp hc).elim hm hL)]

/-- C6: switching lighting setups first hides every known lamp and then
re-enables exactly the lamps of the new setup: a known lamp ends up enabled
iff it exists and belongs to the new setup (single named lamp, the three
tri-rig lamps, or none), and any environment-only (`HDRI`-prefixed) setup
leaves every known lamp hidden regardless of the previous state. -/
theorem set_light_setup_spec (setup : String) (s : SceneLamps) (nm : String)
    (hmem : nm ∈ ALL_LIGHT_NAMES) :
    (nm ∈ setupLamps setup →
      set_light_setup setup s nm = (s nm).map (fun _ => false)) ∧
    (nm ∉ setupLamps setup →
      set_light_setup setup s nm = (s nm).map (fun _ => true)) ∧
    (strStartsWith setup "HDRI" = true →
      set_light_setup setup s nm = (s nm).map (fun _ => true)) := by
  have hall : hideAllLamps s nm = (s nm).map (fun _ => true) := by
    rw [hideAllLamps, foldl_setHideRender_apply true ALL_LIGHT_NAMES s nm, if_pos hmem]
  have hvis : nm ∈ setupLamps setup →
      set_light_setup setup s nm = (s nm).map (fun _ => false) := by
    intro hin
    unfold set_light_setup
    cases hsingle : LIGHTS_SINGLE setup with
    | some lamp =>
      have hsl : setupLamps setup = [lamp] := by unfold setupLamps; rw [hsingle]
      have hlam : nm = lamp := by rw [hsl] at hin; exact List.mem_singleton.mp hin
      show setHideRender (hideAllLamps s) lamp false nm = (s nm).map (fun _ => false)
      rw [setHideRender_apply, if_pos hlam, hall, Option.map_map]
      rfl
    | none =>
      by_cases htri : setup = "Tri Light"
      · have hsl : setupLamps setup = LIGHTS_TRI := by
          unfold setupLamps; rw [hsingle, if_pos htri]
        rw [hsl] at hin
        show (if setup = "Tri Light" then
            LIGHTS_TRI.foldl (fun acc n => setHideRender acc n false) (hideAllLamps s)
          else hideAllLamps s) nm = (s nm).map (fun _ => false)
        rw [if_pos htri,
          foldl_setHideRender_apply false LIGHTS_TRI (hideAllLamps s) nm,
          if_pos hin, hall, Option.map_map]
        rfl
      · have hsl : setupLamps setup = [] := by
          unfold setupLamps; rw [hsingle, if_neg htri]
        rw [hsl] at hin
        exact absurd hin (List.not_mem_nil nm)
  have hhid : nm ∉ setupLamps setup →
      set_light_setup setup s nm = (s nm).map (fun _ => true) := by
    intro hout
    unfold set_light_setup
    cases hsingle : LIGHTS_SINGLE setup with
    | some lamp =>
      have hsl : setupLamps setup = [lamp] := by unfold setupLamps; rw [hsingle]
      have hlam : nm ≠ lamp := by rw [hsl] at hout; simpa using hout
      show setHideRender (hideAllLamps s) lamp false nm = (s nm).map (fun _ => true)
      rw [setHideRender_apply, if_neg hlam, hall]
    | none =>
      by_cases htri : setup = "Tri Light"
      · have hsl : setupLamps setup = LIGHTS_TRI := by
          unfold setupLamps; rw [hsingle, if_pos htri]
        rw [hsl] at hout
        show (if setup = "Tri Light" then
            LIGHTS_TRI.foldl (fun acc n => setHideRender acc n false) (hideAllLamps s)
          else hideAllLamps s) nm = (s nm).map (fun _ => true)
        rw [if_pos htri,
          foldl_setHideRender_apply false LIGHTS_TRI (hideAllLamps s) nm,
          if_neg hout, hall]
      · show (if setup = "Tri Light" then
            LIGHTS_TRI.foldl (fun acc n => setHideRender acc n false) (hideAllLamps s)
          else hideAllLamps s) nm = (s nm).map (fun _ => true)
        rw [if_neg htri, hall]
  refine ⟨hvis, hhid, fun hS => ?_⟩
  have h1 : setup ≠ "Area Light" := fun h => by
    rw [h] at hS; exact absurd hS (by decide)
  have h2 : setup ≠ "Point Light" := fun h => by
    rw [h] at hS; exact absurd hS (by decide)
  have h3 : setup ≠ "Spot Light" := fun h => by
    rw [h] at hS; exact absurd hS (by decide)
  have h4 : setup ≠ "Tri Light" := fun h => by
    rw [h] at hS; exact absurd hS (by decide)
  have hnone : LIGHTS_SINGLE setup = none := by
    unfold LIGHTS_SINGLE
    rw [if_neg h1, if_neg h2, if_neg h3]
  have hsl : setupLamps setup = [] := by
    unfold setupLamps; rw [hnone, if_neg h4]
  exact hhid (by rw [hsl]; exact List.not_mem_nil nm)

/-- Witness scene for C6: the `Point` lamp and the `TriLamp-Key` lamp exist
and are currently enabled; other objects are absent. -/
def exLampsC6 : SceneLamps := fun m =>
  if m = "Point" then some false else if m = "TriLamp-Key" then some false else none

/-- Witness for C6: switching to the `HDRI (Sunlight)` environment-only
setup hides the previously enabled `Point` lamp. -/
theorem c6_witness :
    set_light_setup "HDRI (Sunlight)" exLampsC6 "Point" =
      (exLampsC6 "Point").map (fun _ => true) :=
  (set_light_setup_spec "HDRI (Sunlight)" exLampsC6 "Point" (by decide)).2.2 (by decide)

/-- Shape folder names (`SHAPES`). -/
def SHAPES : List String :=
  ["Cone", "Cube", "Cylinder", "Icosphere", "Sphere", "Torus"]

/-- The lighting setups iterated by the main loop (`setups`). -/
def setups : List String :=
  ["Point Light", "Spot Light", "Area Light", "Tri Light",
   "HDRI (Sunlight)", "HDRI (Overcast)"]

/-- Model of `range(fs, fe + 1)`: the frames of the scene's frame range,
inclusive on both ends. -/
def frameList (fs fe : ℤ) : List ℤ :=
  (List.range (fe - fs + 1).toNat).map fun i => fs + Int.ofNat i

/-- The identity triple of one emitted data row: lighting setup, frame,
shape, in the nesting order of the main loop (setup outermost, frame middle,
shape innermost). -/
def csvDataRows (fs fe : ℤ) : List (String × ℤ × String) :=
  setups.flatMap fun setup =>
    (frameList fs fe).flatMap fun f =>
      SHAPES.map fun sh => (setup, f, sh)

/-- A line of the CSV file: the single header line or a data row. -/
inductive CsvLine where
  | header
  | dataRow (setup : String) (frame : ℤ) (shape : String)
deriving DecidableEq

/-- Lines 191–226: the CSV file as written — `writeheader()` then one
`writerow` per (setup, frame, shape) in loop order. -/
def csvFileLines (fs fe : ℤ) : List CsvLine :=
  CsvLine.header :: (csvDataRows fs fe).map fun k => CsvLine.dataRow k.1 k.2.1 k.2.2

/-- Helper: length of a `flatMap` whose blocks all have length `n`. -/
lemma flatMap_length_const {α β : Type} (g : α → List β) (n : ℕ) :
    ∀ l : List α, (∀ a ∈ l, (g a).length = n) →
      (l.flatMap g).length = l.length * n
  | [], _ => by simp
  | a :: l, hn => by
    rw [List.flatMap_cons, List.length_append,
      flatMap_length_const g n l (fun x hx => hn x (List.mem_cons_of_mem a hx)),
      hn a (List.mem_cons_self a l), List.length_cons, Nat.succ_mul,
      Nat.add_comm (l.length * n) n]

/-- Helper: indexing into a `flatMap` whose blocks all have length `n`. -/
lemma flatMap_getElem_const {α β : Type} (g : α → List β) (n : ℕ) :
    ∀ (l : List α) (i j : ℕ), (∀ a ∈ l, (g a).length = n) →
      ∀ (hi : i < l.length), j < n →
      (l.flatMap g)[i * n + j]? = (g l[i])[j]?
  | [], i, j, _, hi, _ => absurd hi (Nat.not_lt_zero i)
  | a :: l, 0, j, hn, hi, hj => by
    rw [List.flatMap_cons, List.getElem?_append,
      if_pos (by rw [hn a (List.mem_cons_self a l)]; simpa using hj)]
    simp
  | a :: l, i + 1, j, hn, hi, hj => by
    rw [List.flatMap_cons, List.getElem?_append_right
      (by rw [hn a (List.mem_cons_self a l), Nat.succ_mul]; omega)]
    have harith : (i + 1) * n + j - (g a).length = i * n + j := by
      rw [hn a (List.mem_cons_self a l), Nat.succ_mul]; omega
    rw [harith, flatMap_getElem_const g n l i j
      (fun x hx => hn x (List.mem_cons_of_mem a hx)) (by simpa using hi) hj]
    simp

/-- Helper: the `fi`-th frame of the range is `fs + fi`. -/
lemma frameList_getElem (fs fe : ℤ) (fi : ℕ) (hfi : fi < (fe - fs + 1).toNat) :
    (frameList fs fe)[fi]? = some (fs + (fi : ℤ)) := by
  rw [frameList, List.getElem?_map,
    List.getElem?_eq_getElem (by simpa using hfi)]
  rw [List.getElem_range]
  rfl

/-- C7: the CSV output is exactly one header line followed by
`#setups × (frame_end − frame_start + 1) × #shapes` data rows, emitted with
the lighting setup outermost, the frame in the middle and the shape
innermost: the data row at offset `si·F·S + fi·S + shi` past the header is
the row for `(setups[si], frame_start + fi, SHAPES[shi])`. -/
theorem csv_row_count_and_order (fs fe : ℤ) (hfr : fs ≤ fe) :
    (csvFileLines fs fe).length =
      1 + setups.length * ((fe - fs + 1).toNat * SHAPES.length) ∧
    (csvFileLines fs fe).count CsvLine.header = 1 ∧
    (csvFileLines fs fe)[0]? = some CsvLine.header ∧
    ∀ si fi shi (hsi : si < setups.length) (hfi : fi < (fe - fs + 1).toNat)
      (hshi : shi < SHAPES.length),
      (csvFileLines fs fe)[(si * ((fe - fs + 1).toNat * SHAPES.length) +
          fi * SHAPES.length + shi) + 1]? =
        some (CsvLine.dataRow setups[si] (fs + (fi : ℤ)) SHAPES[shi]) := by
  have hinner : ∀ f : ℤ, ∀ setup : String,
      ((SHAPES.map fun sh => (setup, f, sh)).length) = SHAPES.length :=
    fun f setup => List.length_map SHAPES _
  have hblock : ∀ setup ∈ setups,
      ((frameList fs fe).flatMap fun f =>
        SHAPES.map fun sh => (setup, f, sh)).length =
      (fe - fs + 1).toNat * SHAPES.length := by
    intro setup _
    rw [flatMap_length_const _ SHAPES.length _ (fun f _ => hinner f setup)]
    rw [frameList, List.length_map, List.length_range]
  have hrows : (csvDataRows fs fe).length =
      setups.length * ((fe - fs + 1).toNat * SHAPES.length) := by
    rw [csvDataRows, flatMap_length_const _ _ _ hblock]
  refine ⟨?_, ?_, by rw [csvFileLines]; simp, ?_⟩
  · rw [csvFileLines, List.length_cons, List.length_map, hrows, Nat.add_comm]
  · rw [csvFileLines, List.count_cons]
    have hzero : ((csvDataRows fs fe).map fun k =>
        CsvLine.dataRow k.1 k.2.1 k.2.2).count CsvLine.header = 0 := by
      rw [List.count_eq_zero]
      intro hc
      obtain ⟨k, -, hk⟩ := List.mem_map.mp hc
      cases hk
    rw [hzero]
    simp
  · intro si fi shi hsi hfi hshi
    rw [csvFileLines, List.getElem?_cons_succ, List.getElem?_map]
    have hjlt : fi * SHAPES.length + shi < (fe - fs + 1).toNat * SHAPES.length := by
      have h1 : fi * SHAPES.length + shi < (fi + 1) * SHAPES.length := by
        rw [Nat.succ_mul]; omega
      have h2 : (fi + 1) * SHAPES.length ≤ (fe - fs + 1).toNat * SHAPES.length :=
        Nat.mul_le_mul_right _ (Nat.succ_le_of_lt hfi)
      omega
    have houter : (csvDataRows fs fe)[si * ((fe - fs + 1).toNat * SHAPES.length) +
        (fi * SHAPES.length + shi)]? =
        (((frameList fs fe).flatMap fun f =>
          SHAPES.map fun sh => (setups[si], f, sh)))[fi * SHAPES.length + shi]? := by
      rw [csvDataRows, flatMap_getElem_const _ _ setups si
        (fi * SHAPES.length + shi) hblock hsi hjlt]
    have hmid : (((frameList fs fe).flatMap fun f =>
        SHAPES.map fun sh => (setups[si], f, sh)))[fi * SHAPES.length + shi]? =
        ((SHAPES.map fun sh => (setups[si], fs + (fi : ℤ), sh)))[shi]? := by
      have hfl : fi < (frameList fs fe).length := by
        rw [frameList, List.length_map, List.length_range]; exact hfi
      rw [flatMap_getElem_const _ SHAPES.length (frameList fs fe) fi shi
        (fun f _ => hinner f _) hfl hshi]
      have : (frameList fs fe)[fi] = fs + (fi : ℤ) := by
        have := frameList_getElem fs fe fi hfi
        rwa [List.getElem?_eq_getElem hfl, Option.some.injEq] at this
      rw [this]
    have harr : si * ((fe - fs + 1).toNat * SHAPES.length) +
        fi * SHAPES.length + shi =
        si * ((fe - fs + 1).toNat * SHAPES.length) + (fi * SHAPES.length + shi) := by
      omega
    rw [harr, houter, hmid, List.getElem?_map,
      List.getElem?_eq_getElem hshi]
    rfl

/-- Witness for C7 at `frame_start = 1`, `frame_end = 2`: the file has
`1 + 6·(2·6) = 73` lines. -/
theorem c7_witness :
    (csvFileLines 1 2).length =
      1 + setups.length * (((2 : ℤ) - 1 + 1).toNat * SHAPES.length) :=
  (csv_row_count_and_order 1 2 (by norm_num)).1

/-- The configured dataset root (`DATASET_ROOT`). -/
def DATASET_ROOT : String := "../data"

/-- Model of Python `str.strip()` over the character lists (leading and
trailing whitespace removed). -/
def pyStrip (s : String) : String :=
  String.mk (((s.data.dropWhile Char.isWhitespace).reverse.dropWhile
    Char.isWhitespace).reverse)

/-- Model of `os.path.join(root, rel)` for a non-empty relative part. -/
def joinPath (a b : String) : String := a ++ "/" ++ b

/-- Lines 219–221 of the main loop: `exists = ""`, overwritten with
`os.path.exists(os.path.join(DATASET_ROOT, rel))` only when
`DATASET_ROOT.strip()` is truthy (non-empty).  `pathExists` abstracts the
filesystem. -/
def imageExistsCell (root : String) (pathExists : String → Bool)
    (rel : String) : CellVal :=
  if pyStrip root = "" then CellVal.vstr ""
  else CellVal.vbool (pathExists (joinPath root rel))

/-- C8: the image-existence field is the empty sentinel iff the configured
dataset root is blank (empty or whitespace-only); with a non-blank root it
is always a boolean — in particular `False`, distinct from the empty
sentinel, when the computed path does not exist. -/
theorem image_exists_blank_root (root : String) (pathExists : String → Bool)
    (rel : String) :
    (imageExistsCell root pathExists rel = CellVal.vstr "" ↔ pyStrip root = "") ∧
    (pyStrip root ≠ "" →
      imageExistsCell root pathExists rel =
        CellVal.vbool (pathExists (joinPath root rel))) ∧
    (pyStrip root ≠ "" → pathExists (joinPath root rel) = false →
      imageExistsCell root pathExists rel = CellVal.vbool false ∧
      CellVal.vbool false ≠ CellVal.vstr "") := by
  by_cases hblank : pyStrip root = ""
  · refine ⟨⟨fun _ => hblank, fun _ => ?_⟩, fun hnb => absurd hblank hnb,
      fun hnb => absurd hblank hnb⟩
    rw [imageExistsCell, if_pos hblank]
  · have hval : imageExistsCell root pathExists rel =
        CellVal.vbool (pathExists (joinPath root rel)) := by
      rw [imageExistsCell, if_neg hblank]
    refine ⟨⟨fun hc => ?_, fun hb => absurd hb hblank⟩, fun _ => hval,
      fun _ hfalse => ⟨by rw [hval, hfalse], by intro hc; cases hc⟩⟩
    rw [hval] at hc
    cases hc

/-- Witness for C8 at the configured root `"../data"` with a filesystem on
which nothing exists: the emitted cell is the boolean `False`, not the
sentinel. -/
theorem c8_witness :
    imageExistsCell DATASET_ROOT (fun _ => false) "Cone/c.png" =
      CellVal.vbool false ∧
    CellVal.vbool false ≠ CellVal.vstr "" :=
  (image_exists_blank_root DATASET_ROOT (fun _ => false) "Cone/c.png").2.2
    (by decide) rfl

/-- A host Python value, characterised by what its `float(x)` and `str(x)`
conversions produce: `none` models a raised conversion exception. -/
structure PyVal where
  floatConv : Option ℚ
  strConv : Option String

/-- Lines 22–25: `safe_float` — `try: return float(x) except: return ""`. -/
def safe_float (x : PyVal) : CellVal :=
  match x.floatConv with
  | some q => CellVal.vnum (q : ℝ)
  | none => CellVal.vstr ""

/-- Lines 27–30: `safe_str` — `try: return str(x) except: return ""`. -/
def safe_str (x : PyVal) : CellVal :=
  match x.strConv with
  | some t => CellVal.vstr t
  | none => CellVal.vstr ""

/-- Which of the two coercion helpers a row field uses. -/
inductive FieldConv where
  | toFloatField
  | toStrField
deriving DecidableEq

/-- Apply the chosen coercion helper. -/
def applyConv : FieldConv → PyVal → CellVal
  | .toFloatField => safe_float
  | .toStrField => safe_str

/-- The underlying conversion of a field raises. -/
def convFails (c : FieldConv) (x : PyVal) : Prop :=
  match c with
  | .toFloatField => x.floatConv = none
  | .toStrField => x.strConv = none

/-- A row as the exporter builds it: every field is coerced independently by
`safe_float`/`safe_str`. -/
def emitRow (fields : List (FieldConv × PyVal)) : List CellVal :=
  fields.map fun fc => applyConv fc.1 fc.2

/-- C9: the coercion helpers are total — a failed underlying conversion
yields the empty string for that field only, and the containing row is still
emitted with the same number of fields and every other field unchanged. -/
theorem safe_coercion_best_effort (fields : List (FieldConv × PyVal)) (i : ℕ)
    (hi : i < fields.length) (hfail : convFails fields[i].1 fields[i].2) :
    (emitRow fields).length = fields.length ∧
    (emitRow fields)[i]? = some (CellVal.vstr "") ∧
    (∀ j, j ≠ i →
      (emitRow fields)[j]? = (fields[j]?).map fun fc => applyConv fc.1 fc.2) := by
  refine ⟨List.length_map fields _, ?_, fun j _ => ?_⟩
  · rw [emitRow, List.getElem?_map, List.getElem?_eq_getElem hi]
    have hcell : applyConv fields[i].1 fields[i].2 = CellVal.vstr "" := by
      cases hc : fields[i].1 with
      | toFloatField =>
        rw [hc] at hfail
        rw [applyConv, safe_float, hfail]
      | toStrField =>
        rw [hc] at hfail
        rw [applyConv, safe_str, hfail]
    rw [Option.map_some', hcell]
  · rw [emitRow, List.getElem?_map]

/-- Witness row for C9: the first field's float conversion raises, the
second converts normally. -/
def exFieldsC9 : List (FieldConv × PyVal) :=
  [(FieldConv.toFloatField, { floatConv := none, strConv := some "bad" }),
   (FieldConv.toFloatField, { floatConv := some 2, strConv := some "2.0" })]

/-- Witness for C9: in `exFieldsC9`, field 0 degrades to the empty string
and field 1 is still emitted unchanged. -/
theorem c9_witness :
    (emitRow exFieldsC9)[0]? = some (CellVal.vstr "") ∧
    (emitRow exFieldsC9)[1]? =
      (exFieldsC9[1]?).map fun fc => applyConv fc.1 fc.2 :=
  ⟨(safe_coercion_best_effort exFieldsC9 0 (by decide) rfl).2.1,
   (safe_coercion_best_effort exFieldsC9 0 (by decide) rfl).2.2 1 (by decide)⟩
